import Mathlib

/-!
# Verification of `reverse_geocode` (src/__init__.py)

Shallow embedding of the reverse-geocoding service: the data-ingestion
pipeline (`__extract` with its filters and `is_moscow_part`), the country
catalog (`__load_countries`), and the query facade (`query`, `get`,
`search`).  The scipy `cKDTree` spatial index is an external dependency
whose code is not part of this repository; its nearest-neighbour query is
modelled from the spec (planar Euclidean distance on the raw
latitude/longitude plane, batched, first minimiser).

Strings stay strings through ingestion (the Python code keeps latitude and
longitude as the raw CSV fields); coordinates are parsed to rationals only
where the spatial index consumes them, mirroring numpy's conversion of the
string pairs at tree construction / query time.
-/

/-- One row of the raw gazetteer dump, restricted to the fields the code
reads: `row[1]` (city), `row[4]` (latitude), `row[5]` (longitude),
`row[7]` (place-type code), `row[8]` (country code), `row[10]` (admin1). -/
structure DumpRow where
  city : String
  latitude : String
  longitude : String
  cityType : String
  countryCode : String
  admin1 : String
deriving DecidableEq, Repr

/-- One row of the compact cache CSV: `latitude,longitude,country_code,city`,
exactly the tuple `row = latitude, longitude, country_code, city` the code
writes and retains. -/
structure CacheRow where
  latitude : String
  longitude : String
  country_code : String
  city : String
deriving DecidableEq, Repr

/-- A stored location record: the dict `dict(country_code=..., city=...)`.
The `country` field models the optional `'country'` key that `query` may
later add to the same dict object (absent right after construction). -/
structure LocRecord where
  country_code : String
  city : String
  country : Option String := none
deriving DecidableEq, Repr

/-- A query result as returned to the caller: the matched record with its
resolved country name. -/
structure QueryResult where
  city : String
  country_code : String
  country : String
deriving DecidableEq, Repr

/-- `is_moscow_part(admin1, country_code, city_type)` from the source. -/
def is_moscow_part (admin1 country_code city_type : String) : Bool :=
  admin1 == "48" && country_code == "RU" && city_type != "PPLC"

/-- The fixed exclusion set `('PPLX', 'PPLA3', 'PPLH')` of place-type codes. -/
def excludedCityTypes : List String := ["PPLX", "PPLA3", "PPLH"]

/-- The compact tuple `row = latitude, longitude, country_code, city` built
from a surviving dump row. -/
def toCacheRow (r : DumpRow) : CacheRow :=
  { latitude := r.latitude, longitude := r.longitude,
    country_code := r.countryCode, city := r.city }

/-- The filter loop of `__extract` over the raw dump: a row is appended to
`rows` (and written to the compact cache) exactly when latitude, longitude
and country code are non-empty, the place-type code is not excluded, and
the row is not a non-capital Moscow-region subdivision.  The nesting of the
conditionals mirrors the source. -/
def extractRows : List DumpRow → List CacheRow
  | [] => []
  | r :: rest =>
    if r.latitude != "" && r.longitude != "" && r.countryCode != "" then
      if !(excludedCityTypes.contains r.cityType) then
        if !(is_moscow_part r.admin1 r.countryCode r.cityType) then
          toCacheRow r :: extractRows rest
        else extractRows rest
      else extractRows rest
    else extractRows rest

/-- The single retention condition implied by the nested conditionals of
`extractRows`. -/
def keepRow (r : DumpRow) : Bool :=
  (r.latitude != "" && r.longitude != "" && r.countryCode != "") &&
  !(excludedCityTypes.contains r.cityType) &&
  !(is_moscow_part r.admin1 r.countryCode r.cityType)

/-- The filesystem / network environment `__extract` runs against: an
optional compact cache (at `geocode.csv`), an optional local raw dump
(at `cities1000.txt`), and the remote dump behind the fixed URL. -/
structure FileSystem where
  cache : Option (List CacheRow)
  localDump : Option (List DumpRow)
  remoteDump : List DumpRow
deriving DecidableEq, Repr

deriving instance DecidableEq for Except

/-- What a run of `__extract` left behind: the rows it returned or the
exception it raised, whether it fetched the remote archive, and the compact
cache file it wrote on disk (written row by row during the filter loop, so
present even when the run raises afterwards). -/
structure ExtractOutcome where
  result : Except String (List CacheRow)
  fetched : Bool
  cacheWritten : Option (List CacheRow)
deriving DecidableEq, Repr

/-- `__extract`: if the compact cache exists its rows are used verbatim in
file order.  Otherwise the raw dump is filtered through `extractRows` and
the surviving rows are written as the new compact cache; the dump is
fetched from the remote location only when absent locally, and
`downloadedFile` is assigned only inside that download branch.  The
cleanup `os.remove(downloadedFile)` therefore raises `UnboundLocalError`
in the branch where the dump was already on disk: the compact cache has
been written, but the call raises instead of returning rows. -/
def extract (fs : FileSystem) : ExtractOutcome :=
  match fs.cache with
  | some rows => { result := .ok rows, fetched := false, cacheWritten := none }
  | none =>
    match fs.localDump with
    | some d =>
      { result := .error "UnboundLocalError", fetched := false,
        cacheWritten := some (extractRows d) }
    | none =>
      { result := .ok (extractRows fs.remoteDump), fetched := true,
        cacheWritten := some (extractRows fs.remoteDump) }

/-- The final loop of `__extract`: turn the rows into the index-aligned
pair of the coordinate sequence and the location records. -/
def loadRows (rows : List CacheRow) :
    List (String × String) × List LocRecord :=
  (rows.map (fun r => (r.latitude, r.longitude)),
   rows.map (fun r => { country_code := r.country_code, city := r.city }))

/-- Accumulate the value of a run of decimal digits. -/
def parseDigitsAux (acc : Nat) : List Char → Option Nat
  | [] => some acc
  | c :: rest =>
    if c.isDigit then parseDigitsAux (10 * acc + (c.toNat - 48)) rest else none

/-- Parse a non-empty run of decimal digits. -/
def parseDigits : List Char → Option Nat
  | [] => none
  | cs => parseDigitsAux 0 cs

/-- Split a character list at the first decimal point, if any. -/
def splitFrac : List Char → List Char × Option (List Char)
  | [] => ([], none)
  | c :: rest =>
    if c = '.' then ([], some rest)
    else
      let (ip, fp) := splitFrac rest
      (c :: ip, fp)

/-- Modelled from the spec: the numeric conversion the Spatial Index applies
to a coordinate component (the scipy/numpy float parsing of the raw string;
scipy is an external dependency, not source of this repository).  A signed
decimal literal becomes a rational; anything else is a parse failure. -/
def parseDecimal (s : String) : Option ℚ :=
  let (neg, body) := match s.toList with
    | c :: rest => if c = '-' then (true, rest) else (false, s.toList)
    | [] => (false, s.toList)
  let (ip, fp?) := splitFrac body
  let mag : Option ℚ :=
    match fp? with
    | none => (parseDigits ip).map (fun n => (n : ℚ))
    | some fp =>
      match parseDigits ip, parseDigits fp with
      | some n, some f =>
        some ((n : ℚ) + (f : ℚ) / ((10 : ℚ) ^ fp.length))
      | _, _ => none
  mag.map (fun q => if neg then -q else q)

/-- Modelled from the spec: a query coordinate is well-formed when it is a
pair of numeric components (wrong arity or a non-numeric component is an
input-parsing error). -/
def parsePoint (p : List String) : Option (ℚ × ℚ) :=
  match p with
  | [a, b] =>
    match parseDecimal a, parseDecimal b with
    | some x, some y => some (x, y)
    | _, _ => none
  | _ => none

/-- Modelled from the spec: the batched conversion of the whole coordinate
argument; any malformed coordinate fails the whole query call. -/
def parsePoints : List (List String) → Option (List (ℚ × ℚ))
  | [] => some []
  | p :: ps =>
    match parsePoint p, parsePoints ps with
    | some q, some qs => some (q :: qs)
    | _, _ => none

/-- Squared planar Euclidean distance on the raw (latitude, longitude)
plane — the contractual metric (minimised exactly when the Euclidean
distance is). -/
def sqDist (a b : ℚ × ℚ) : ℚ :=
  (a.1 - b.1) ^ 2 + (a.2 - b.2) ^ 2

/-- Modelled from the spec: the Spatial Index nearest-neighbour lookup for
one point (`tree.query(..., k=1)` per point): the position of a stored
coordinate minimising planar Euclidean distance to the query point. -/
def nearestIdx (data : List (ℚ × ℚ)) (p : ℚ × ℚ) : Nat :=
  match data.enum.argmin (fun ic => sqDist ic.2 p) with
  | some ic => ic.1
  | none => 0

/-- Python dict lookup `m.get(k, dflt)` for a dict built by successive
assignments from an association list (later assignments win). -/
def dictGet (m : List (String × String)) (k dflt : String) : String :=
  match m.reverse.find? (fun p => p.1 == k) with
  | some p => p.2
  | none => dflt

/-- The shared state of the constructed `GeocodeData` instance: the tree's
coordinate data, the location records the tree indices point into, and the
country catalog. -/
structure ServiceState where
  coordinates : List (ℚ × ℚ)
  locations : List LocRecord
  countries : List (String × String)
deriving DecidableEq, Repr

/-- `result['country'] = self.__countries.get(result['country_code'], '')`:
the in-place update `query` performs on a matched record dict. -/
def setCountry (countries : List (String × String)) (r : LocRecord) : LocRecord :=
  { r with country := some (dictGet countries r.country_code "") }

/-- One step of `query`'s result loop: set the `'country'` key of the
record dict at one hit index. -/
def hitStep (countries : List (String × String)) (l : List LocRecord)
    (i : Nat) : List LocRecord :=
  match l[i]? with
  | some r => l.set i (setCountry countries r)
  | none => l

/-- The mutation of the stored location dicts performed by `query`'s result
loop: each hit index has its record's `'country'` key set. -/
def applyHits (countries : List (String × String)) (locs : List LocRecord)
    (indices : List Nat) : List LocRecord :=
  indices.foldl (hitStep countries) locs

/-- Read a matched record back out as the caller-visible result (the
returned dicts all carry a `'country'` key after the result loop). -/
def toResult (r : LocRecord) : QueryResult :=
  { city := r.city, country_code := r.country_code,
    country := r.country.getD "" }

/-- What a call to `GeocodeData.query` produced: the returned results or
the re-raised error, the shared state afterwards, and the log lines. -/
structure QueryOutcome where
  result : Except String (List QueryResult)
  state : ServiceState
  log : List String
deriving Repr

/-- `GeocodeData.query`: parse the batched coordinates (a `ValueError` is
logged and re-raised, leaving the state untouched), look up the nearest
stored position for each point, set each matched record's `'country'` key
from the catalog, and return the matched records in input order. -/
def query (st : ServiceState) (coordinates : List (List String)) :
    QueryOutcome :=
  match parsePoints coordinates with
  | none =>
    { result := .error "ValueError",
      state := st,
      log := ["Unable to parse coordinates"] }
  | some pts =>
    let indices := pts.map (nearestIdx st.coordinates)
    let locs := applyHits st.countries st.locations indices
    { result := .ok (indices.map (fun i =>
        toResult ((locs[i]?).getD { country_code := "", city := "" }))),
      state := { st with locations := locs },
      log := [] }

/-- Module-level `search`: delegate the whole batch to `query` on the
shared instance. -/
def search (st : ServiceState) (coordinates : List (List String)) :
    QueryOutcome :=
  query st coordinates

/-- Module-level `get`: `gd.query([coordinate])[0]` (indexing an empty
result list would be an `IndexError`). -/
def get (st : ServiceState) (coordinate : List String) :
    Except String QueryResult × ServiceState :=
  let o := query st [coordinate]
  match o.result with
  | .ok (r :: _) => (.ok r, o.state)
  | .ok [] => (.error "IndexError", o.state)
  | .error e => (.error e, o.state)

/-- Running a sequence of query calls against the shared state. -/
def runQueries (st : ServiceState)
    (qs : List (List (List String))) : ServiceState :=
  qs.foldl (fun s q => (query s q).state) st

/-- How a later shared state may relate to the state right after
construction: coordinates, catalog, number of records, and each record's
`country_code` and `city` are unchanged; a record itself is either
untouched or has had its `'country'` key set from the catalog. -/
def preservedFrom (st0 st : ServiceState) : Prop :=
  st.coordinates = st0.coordinates ∧
  st.countries = st0.countries ∧
  st.locations.length = st0.locations.length ∧
  ∀ i : Nat,
    st.locations[i]? = st0.locations[i]? ∨
    st.locations[i]? = (st0.locations[i]?).map (setCountry st0.countries)

example :
    extractRows [{ city := "X", latitude := "1", longitude := "2",
                   cityType := "PPLX", countryCode := "DE", admin1 := "01" }] = [] := by
  decide

example :
    extractRows [{ city := "X", latitude := "1", longitude := "2",
                   cityType := "PPL", countryCode := "DE", admin1 := "01" }] =
      [{ latitude := "1", longitude := "2", country_code := "DE", city := "X" }] := by
  decide

/-! ## Ingestion pipeline lemmas -/

/-- The nested conditionals of the extraction loop implement the single
retention predicate `keepRow`, row by row in original order. -/
theorem extractRows_eq_filter (dump : List DumpRow) :
    extractRows dump = (dump.filter keepRow).map toCacheRow := by
  induction dump with
  | nil => simp [extractRows]
  | cons r rest ih =>
    by_cases h1 : (r.latitude != "" && r.longitude != "" && r.countryCode != "") = true
    · by_cases h2 : excludedCityTypes.contains r.cityType = true
      · have hm : r.cityType ∈ excludedCityTypes := by simpa using h2
        have hk : keepRow r = false := by simp [keepRow, hm]
        simp [extractRows, h1, hm, List.filter_cons, hk, ih]
      · have hm : r.cityType ∉ excludedCityTypes := by
          simp only [Bool.not_eq_true] at h2
          simpa using h2
        by_cases h3 : is_moscow_part r.admin1 r.countryCode r.cityType = true
        · have hk : keepRow r = false := by simp [keepRow, h3]
          simp [extractRows, h1, hm, h3, List.filter_cons, hk, ih]
        · simp only [Bool.not_eq_true] at h3
          have hk : keepRow r = true := by simp [keepRow, h1, hm, h3]
          simp [extractRows, h1, hm, h3, List.filter_cons, hk, ih]
    · simp only [Bool.not_eq_true] at h1
      have hk : keepRow r = false := by simp [keepRow, h1]
      simp [extractRows, h1, List.filter_cons, hk, ih]

/-- A kept row has non-empty latitude, longitude and country code and a
non-excluded place-type code. -/
theorem keepRow_necessary (r : DumpRow) (h : keepRow r = true) :
    r.latitude ≠ "" ∧ r.longitude ≠ "" ∧ r.countryCode ≠ "" ∧
      r.cityType ∉ excludedCityTypes := by
  simp only [keepRow, Bool.and_eq_true, bne_iff_ne, ne_eq, Bool.not_eq_true',
    List.elem_eq_mem, decide_eq_false_iff_not] at h
  tauto

/-- A row with an empty mandatory field or an excluded place-type code is
not kept. -/
theorem keepRow_excluded (r : DumpRow)
    (h : r.latitude = "" ∨ r.longitude = "" ∨ r.countryCode = "" ∨
      r.cityType ∈ excludedCityTypes) : keepRow r = false := by
  rcases h with h | h | h | h <;> simp [keepRow, h]

/-! ## Claim theorems: ingestion -/

/-- C2: when a first ingestion run with no compact cache returns its
output (built from the raw dump), a second run reading only the compact
cache the first run wrote returns rows — and hence a loaded (coordinate
sequence, record sequence) pair — identical, element by element and in
order, to the first run's.  (A first run whose raw dump is already on disk
raises `UnboundLocalError` instead of returning, so it produces no output
to compare; the hypothesis that the first run returned restricts to the
completing runs.) -/
theorem ingestion_idempotent (fs fs2 : FileSystem) (rows1 : List CacheRow)
    (h1 : fs.cache = none)
    (hok : (extract fs).result = .ok rows1)
    (h2 : fs2.cache = (extract fs).cacheWritten) :
    ∃ rows2, (extract fs2).result = .ok rows2 ∧ rows2 = rows1 ∧
      loadRows rows2 = loadRows rows1 := by
  rcases hd : fs.localDump with _ | d
  · have hw : (extract fs).cacheWritten = some (extractRows fs.remoteDump) := by
      simp [extract, h1, hd]
    have hr : rows1 = extractRows fs.remoteDump := by
      have : (extract fs).result = .ok (extractRows fs.remoteDump) := by
        simp [extract, h1, hd]
      rw [this] at hok
      exact (Except.ok.inj hok).symm
    rw [hw] at h2
    refine ⟨rows1, ?_, rfl, rfl⟩
    rw [hr]
    simp [extract, h2, hr]
  · have : (extract fs).result = .error "UnboundLocalError" := by
      simp [extract, h1, hd]
    rw [this] at hok
    exact absurd hok (by simp)

/-- Witness for C2: a first run that fetches the one-row dump and returns,
followed by a second run reading the written cache. -/
theorem ingestion_idempotent_witness :
    ({ cache := none, localDump := none,
       remoteDump := [⟨"X", "1", "2", "PPL", "DE", "01"⟩] } : FileSystem).cache
      = none ∧
    (extract { cache := none, localDump := none,
               remoteDump := [⟨"X", "1", "2", "PPL", "DE", "01"⟩] }).result =
      .ok [⟨"1", "2", "DE", "X"⟩] ∧
    ({ cache := some [⟨"1", "2", "DE", "X"⟩], localDump := none,
       remoteDump := [] } : FileSystem).cache =
      (extract { cache := none, localDump := none,
                 remoteDump := [⟨"X", "1", "2", "PPL", "DE", "01"⟩] }).cacheWritten ∧
    ∃ rows2, (extract { cache := some [⟨"1", "2", "DE", "X"⟩],
                        localDump := none, remoteDump := [] }).result =
        .ok rows2 ∧ rows2 = [⟨"1", "2", "DE", "X"⟩] ∧
      loadRows rows2 = loadRows [⟨"1", "2", "DE", "X"⟩] :=
  ⟨rfl, by decide, by decide,
   ingestion_idempotent
     { cache := none, localDump := none,
       remoteDump := [⟨"X", "1", "2", "PPL", "DE", "01"⟩] }
     { cache := some [⟨"1", "2", "DE", "X"⟩], localDump := none,
       remoteDump := [] }
     [⟨"1", "2", "DE", "X"⟩] rfl (by decide) (by decide)⟩

/-- C3: ingestion retains exactly the rows passing `keepRow` — they are
what gets written to the compact cache (even when the run then raises) and
what any returning run yields; a kept row has non-empty latitude,
longitude and country code and a place-type code outside the excluded set,
and conversely a row with an empty mandatory field or an excluded
place-type code is not kept. -/
theorem retained_rows_filter (dump : List DumpRow) :
    extractRows dump = (dump.filter keepRow).map toCacheRow ∧
    (∀ fs : FileSystem, fs.cache = none →
      (fs.localDump = some dump ∨
        (fs.localDump = none ∧ fs.remoteDump = dump)) →
      (extract fs).cacheWritten = some (extractRows dump) ∧
      ∀ rows, (extract fs).result = .ok rows → rows = extractRows dump) ∧
    (∀ r : DumpRow, keepRow r = true →
      r.latitude ≠ "" ∧ r.longitude ≠ "" ∧ r.countryCode ≠ "" ∧
        r.cityType ∉ excludedCityTypes) ∧
    (∀ r : DumpRow,
      (r.latitude = "" ∨ r.longitude = "" ∨ r.countryCode = "" ∨
        r.cityType ∈ excludedCityTypes) → keepRow r = false) := by
  refine ⟨extractRows_eq_filter dump, ?_, keepRow_necessary, keepRow_excluded⟩
  intro fs hc hd
  rcases hd with hd | ⟨hd, hr⟩
  · constructor
    · simp [extract, hc, hd]
    · intro rows hrows
      rw [show (extract fs).result = .error "UnboundLocalError" from
        by simp [extract, hc, hd]] at hrows
      exact absurd hrows (by simp)
  · constructor
    · simp [extract, hc, hd, hr]
    · intro rows hrows
      rw [show (extract fs).result = .ok (extractRows dump) from
        by simp [extract, hc, hd, hr]] at hrows
      exact (Except.ok.inj hrows).symm

/-- Witness for C3: a row with empty latitude is rejected, an excluded
place-type code is rejected, a well-formed row is kept, and the kept rows
are exactly what a cache-less run writes to the compact cache. -/
theorem retained_rows_filter_witness :
    keepRow ⟨"A", "", "2", "PPL", "DE", "01"⟩ = false ∧
    keepRow ⟨"B", "1", "2", "PPLX", "DE", "01"⟩ = false ∧
    extractRows [⟨"A", "", "2", "PPL", "DE", "01"⟩,
                 ⟨"B", "1", "2", "PPLX", "DE", "01"⟩,
                 ⟨"C", "1", "2", "PPL", "DE", "01"⟩] =
      [⟨"1", "2", "DE", "C"⟩] ∧
    (extract { cache := none,
               localDump := some [⟨"A", "", "2", "PPL", "DE", "01"⟩,
                                  ⟨"B", "1", "2", "PPLX", "DE", "01"⟩,
                                  ⟨"C", "1", "2", "PPL", "DE", "01"⟩],
               remoteDump := [] }).cacheWritten =
      some (extractRows [⟨"A", "", "2", "PPL", "DE", "01"⟩,
                         ⟨"B", "1", "2", "PPLX", "DE", "01"⟩,
                         ⟨"C", "1", "2", "PPL", "DE", "01"⟩]) :=
  ⟨(retained_rows_filter []).2.2.2 _ (Or.inl rfl),
   (retained_rows_filter []).2.2.2 _ (Or.inr (Or.inr (Or.inr (by decide)))),
   by decide,
   ((retained_rows_filter [⟨"A", "", "2", "PPL", "DE", "01"⟩,
                           ⟨"B", "1", "2", "PPLX", "DE", "01"⟩,
                           ⟨"C", "1", "2", "PPL", "DE", "01"⟩]).2.1
      _ rfl (Or.inl rfl)).1⟩

/-- C4: an otherwise well-formed dump row with admin1 `"48"` and country
code `"RU"` is excluded whenever its place-type code is not `"PPLC"`, and
retained when its place-type code is `"PPLC"`. -/
theorem moscow_subdivision_filter (r : DumpRow)
    (hlat : r.latitude ≠ "") (hlong : r.longitude ≠ "")
    (hcc : r.countryCode = "RU") (hadmin : r.admin1 = "48")
    (hex : r.cityType ∉ excludedCityTypes) :
    (r.cityType ≠ "PPLC" → extractRows [r] = []) ∧
    (r.cityType = "PPLC" → extractRows [r] = [toCacheRow r]) := by
  constructor
  · intro hne
    have hk : keepRow r = false := by
      simp [keepRow, is_moscow_part, hcc, hadmin, hne]
    rw [extractRows_eq_filter]
    simp [List.filter_cons, hk]
  · intro heq
    have hk : keepRow r = true := by
      simp [keepRow, is_moscow_part, hcc, hadmin, heq, hlat, hlong, hex]
      decide
    rw [extractRows_eq_filter]
    simp [List.filter_cons, hk]

/-- Witness for C4: a non-capital Moscow-region row is dropped; the capital
row is kept. -/
theorem moscow_subdivision_filter_witness :
    extractRows [⟨"Podolsk", "55.42", "37.54", "PPL", "RU", "48"⟩] = [] ∧
    extractRows [⟨"Moscow", "55.75", "37.61", "PPLC", "RU", "48"⟩] =
      [⟨"55.75", "37.61", "RU", "Moscow"⟩] :=
  ⟨(moscow_subdivision_filter _ (by decide) (by decide) rfl rfl
      (by decide)).1 (by decide),
   (moscow_subdivision_filter _ (by decide) (by decide) rfl rfl
      (by decide)).2 rfl⟩

/-- C7 (code bug): with no compact cache but the raw dump already on disk,
`__extract` indeed fetches nothing, filters the dump and writes the compact
cache — but then executes `os.remove(downloadedFile)` with
`downloadedFile` never assigned (it is bound only inside the download
branch), so the call raises `UnboundLocalError` instead of returning the
output sequences.  This evaluates the code at a concrete such input. -/
theorem extract_local_dump_raises :
    extract { cache := none,
              localDump := some [⟨"X", "1", "2", "PPL", "DE", "01"⟩],
              remoteDump := [] } =
      { result := .error "UnboundLocalError", fetched := false,
        cacheWritten := some [⟨"1", "2", "DE", "X"⟩] } := by
  decide

/-! ## Spatial index and query lemmas -/

/-- The spec-modelled nearest-neighbour lookup returns the position of a
stored coordinate whose squared planar distance to the query point is
minimal over all stored coordinates. -/
theorem nearestIdx_spec (data : List (ℚ × ℚ)) (p : ℚ × ℚ) (h : data ≠ []) :
    ∃ c, data[nearestIdx data p]? = some c ∧
      ∀ (k : Nat) (ck : ℚ × ℚ), data[k]? = some ck → sqDist c p ≤ sqDist ck p := by
  rcases hm : data.enum.argmin (fun ic => sqDist ic.2 p) with _ | ⟨i, c⟩
  · exfalso
    rw [List.argmin_eq_none] at hm
    have hlen : data.enum.length = 0 := by rw [hm]; rfl
    rw [List.enum_length] at hlen
    exact h (List.length_eq_zero.1 hlen)
  · have hmem : (i, c) ∈ data.enum :=
      List.argmin_mem (show _ ∈ _ by rw [hm]; rfl)
    have hic : data[i]? = some c := List.mk_mem_enum_iff_getElem?.1 hmem
    refine ⟨c, ?_, ?_⟩
    · have : nearestIdx data p = i := by simp [nearestIdx, hm]
      rw [this]; exact hic
    · intro k ck hk
      have hkm : (k, ck) ∈ data.enum := List.mk_mem_enum_iff_getElem?.2 hk
      have hle := List.le_of_mem_argmin hkm (show _ ∈ _ by rw [hm]; rfl)
      simpa using hle

/-- A successful batched parse yields one point per input coordinate. -/
theorem parsePoints_length (ps : List (List String)) (pts : List (ℚ × ℚ))
    (h : parsePoints ps = some pts) : pts.length = ps.length := by
  induction ps generalizing pts with
  | nil =>
    simp only [parsePoints, Option.some.injEq] at h
    subst h; rfl
  | cons p ps ih =>
    simp only [parsePoints] at h
    rcases hp : parsePoint p with _ | q <;> rw [hp] at h
    · exact absurd h (by simp)
    · rcases hps : parsePoints ps with _ | qs <;> rw [hps] at h
      · exact absurd h (by simp)
      · simp only [Option.some.injEq] at h
        subst h
        simp [ih qs hps]

/-- Parsing a one-coordinate batch succeeds exactly on the parse of that
coordinate, yielding a one-point list. -/
theorem parsePoints_singleton (c : List String) (pts : List (ℚ × ℚ))
    (h : parsePoints [c] = some pts) :
    ∃ q, parsePoint c = some q ∧ pts = [q] := by
  simp only [parsePoints] at h
  rcases hp : parsePoint c with _ | q <;> rw [hp] at h
  · exact absurd h (by simp)
  · simp only [Option.some.injEq] at h
    exact ⟨q, rfl, h.symm⟩

/-- Setting the country key twice with the same catalog is the same as
setting it once. -/
theorem setCountry_idem (cs : List (String × String)) (r : LocRecord) :
    setCountry cs (setCountry cs r) = setCountry cs r :=
  rfl

/-- `setCountry` twice on an optional record collapses. -/
theorem map_setCountry_idem (cs : List (String × String))
    (o : Option LocRecord) :
    (o.map (setCountry cs)).map (setCountry cs) = o.map (setCountry cs) := by
  cases o <;> simp [setCountry_idem]

/-- One hit step leaves the list length unchanged. -/
theorem hitStep_length (cs : List (String × String)) (l : List LocRecord)
    (i : Nat) : (hitStep cs l i).length = l.length := by
  unfold hitStep
  rcases l[i]? with _ | r <;> simp

/-- One hit step sets the country key at its own index (when it exists). -/
theorem hitStep_getElem_self (cs : List (String × String))
    (l : List LocRecord) (j : Nat) :
    (hitStep cs l j)[j]? = (l[j]?).map (setCountry cs) := by
  unfold hitStep
  rcases hj : l[j]? with _ | r
  · simp [hj]
  · have hlt : j < l.length := (List.getElem?_eq_some_iff.1 hj).1
    rw [List.getElem?_set_self hlt]
    rfl

/-- One hit step does not touch other indices. -/
theorem hitStep_getElem_ne (cs : List (String × String))
    (l : List LocRecord) {i j : Nat} (h : i ≠ j) :
    (hitStep cs l j)[i]? = l[i]? := by
  unfold hitStep
  rcases l[j]? with _ | r
  · rfl
  · exact List.getElem?_set_ne (Ne.symm h)

/-- The result loop leaves the number of records unchanged. -/
theorem applyHits_length (cs : List (String × String)) (locs : List LocRecord)
    (idxs : List Nat) : (applyHits cs locs idxs).length = locs.length := by
  induction idxs generalizing locs with
  | nil => rfl
  | cons j rest ih =>
    calc (applyHits cs (hitStep cs locs j) rest).length
        = (hitStep cs locs j).length := ih _
      _ = locs.length := hitStep_length cs locs j

/-- After the result loop each record is either untouched or has had its
country key set. -/
theorem applyHits_getElem (cs : List (String × String)) (locs : List LocRecord)
    (idxs : List Nat) (i : Nat) :
    (applyHits cs locs idxs)[i]? = locs[i]? ∨
    (applyHits cs locs idxs)[i]? = (locs[i]?).map (setCountry cs) := by
  induction idxs generalizing locs with
  | nil => left; rfl
  | cons j rest ih =>
    have hstep : (hitStep cs locs j)[i]? = locs[i]? ∨
        (hitStep cs locs j)[i]? = (locs[i]?).map (setCountry cs) := by
      by_cases hij : i = j
      · subst hij; right; exact hitStep_getElem_self cs locs i
      · left; exact hitStep_getElem_ne cs locs hij
    have hrec := ih (hitStep cs locs j)
    have heq : applyHits cs locs (j :: rest) = applyHits cs (hitStep cs locs j) rest := rfl
    rcases hrec with h1 | h1 <;> rcases hstep with h2 | h2
    · left; rw [heq, h1, h2]
    · right; rw [heq, h1, h2]
    · right; rw [heq, h1, h2]
    · right; rw [heq, h1, h2, map_setCountry_idem]

/-- Indices never hit keep their original record. -/
theorem applyHits_getElem_not_mem (cs : List (String × String))
    (locs : List LocRecord) (idxs : List Nat) (j : Nat) (hj : j ∉ idxs) :
    (applyHits cs locs idxs)[j]? = locs[j]? := by
  induction idxs generalizing locs with
  | nil => rfl
  | cons a rest ih =>
    have hne : j ≠ a := fun h => hj (h ▸ List.mem_cons_self a rest)
    have heq : applyHits cs locs (a :: rest) = applyHits cs (hitStep cs locs a) rest := rfl
    rw [heq, ih _ (fun h => hj (List.mem_cons_of_mem a h)),
      hitStep_getElem_ne cs locs hne]

/-- Every hit index has its record's country key set by the result loop. -/
theorem applyHits_getElem_mem (cs : List (String × String))
    (locs : List LocRecord) (idxs : List Nat) (j : Nat) (hj : j ∈ idxs) :
    (applyHits cs locs idxs)[j]? = (locs[j]?).map (setCountry cs) := by
  induction idxs generalizing locs with
  | nil => cases hj
  | cons a rest ih =>
    have heq : applyHits cs locs (a :: rest) = applyHits cs (hitStep cs locs a) rest := rfl
    by_cases hjr : j ∈ rest
    · have hr := ih (hitStep cs locs a) hjr
      by_cases hja : j = a
      · subst hja
        rw [heq, hr, hitStep_getElem_self cs locs j, map_setCountry_idem]
      · rw [heq, hr, hitStep_getElem_ne cs locs hja]
    · have hja : j = a := by
        rcases List.mem_cons.1 hj with h | h
        · exact h
        · exact absurd h hjr
      subst hja
      rw [heq, applyHits_getElem_not_mem cs _ rest j hjr,
        hitStep_getElem_self cs locs j]

/-- Looking up a code that appears nowhere in the catalog yields the
default. -/
theorem dictGet_not_mem (m : List (String × String)) (k d : String)
    (h : ∀ p ∈ m, p.1 ≠ k) : dictGet m k d = d := by
  have hf : m.reverse.find? (fun p => p.1 == k) = none :=
    List.find?_eq_none.2 (fun x hx => by
      simpa using h x (List.mem_reverse.1 hx))
  simp [dictGet, hf]

/-! ## Claim theorems: queries -/

/-- C1: for a non-empty batch of well-formed numeric query coordinates,
`search` returns exactly one result per input coordinate, in input order,
and the result at position `i` is (the country-resolved copy of) the
stored record at a position whose stored coordinate minimises planar
Euclidean distance to input point `i` (equivalently, its square). -/
theorem search_nearest_per_input (st : ServiceState)
    (coords : List (List String)) (pts : List (ℚ × ℚ))
    (hp : parsePoints coords = some pts)
    (hne : coords ≠ [])
    (hlen : st.locations.length = st.coordinates.length)
    (hc : st.coordinates ≠ []) :
    ∃ rs, (search st coords).result = .ok rs ∧
      rs.length = coords.length ∧
      ∀ (i : Nat) (p : ℚ × ℚ), pts[i]? = some p →
        ∃ (j : Nat) (cj : ℚ × ℚ) (rec : LocRecord) (r : QueryResult),
          st.coordinates[j]? = some cj ∧
          st.locations[j]? = some rec ∧
          rs[i]? = some r ∧
          r.city = rec.city ∧ r.country_code = rec.country_code ∧
          ∀ (k : Nat) (ck : ℚ × ℚ), st.coordinates[k]? = some ck →
            sqDist cj p ≤ sqDist ck p := by
  refine ⟨((pts.map (nearestIdx st.coordinates)).map (fun i =>
    toResult (((applyHits st.countries st.locations
      (pts.map (nearestIdx st.coordinates)))[i]?).getD
        { country_code := "", city := "" }))), ?_, ?_, ?_⟩
  · simp [search, query, hp]
  · simp [parsePoints_length coords pts hp]
  · intro i p hpi
    obtain ⟨cj, hcj, hmin⟩ := nearestIdx_spec st.coordinates p hc
    have hjlt : nearestIdx st.coordinates p < st.coordinates.length :=
      (List.getElem?_eq_some_iff.1 hcj).1
    have hjl : nearestIdx st.coordinates p < st.locations.length := by
      rw [hlen]; exact hjlt
    have hrec : st.locations[nearestIdx st.coordinates p]? =
        some (st.locations.get ⟨nearestIdx st.coordinates p, hjl⟩) :=
      List.getElem?_eq_getElem hjl
    have hjmem : nearestIdx st.coordinates p ∈
        pts.map (nearestIdx st.coordinates) :=
      List.mem_map.2 ⟨p, List.getElem?_mem hpi, rfl⟩
    have hmut : (applyHits st.countries st.locations
        (pts.map (nearestIdx st.coordinates)))[nearestIdx st.coordinates p]? =
        some (setCountry st.countries
          (st.locations.get ⟨nearestIdx st.coordinates p, hjl⟩)) := by
      rw [applyHits_getElem_mem st.countries st.locations _ _ hjmem, hrec]
      rfl
    refine ⟨nearestIdx st.coordinates p, cj,
      st.locations.get ⟨nearestIdx st.coordinates p, hjl⟩,
      toResult (setCountry st.countries
        (st.locations.get ⟨nearestIdx st.coordinates p, hjl⟩)),
      hcj, hrec, ?_, rfl, rfl, hmin⟩
    rw [List.getElem?_map, List.getElem?_map, hpi]
    simp [hmut]

/-- Witness for C1 on a two-record service and a concrete query batch. -/
theorem search_nearest_per_input_witness :
    parsePoints [["3", "0"], ["0", "1"]] = some [(3, 0), (0, 1)] ∧
    ([["3", "0"], ["0", "1"]] : List (List String)) ≠ [] ∧
    (({ coordinates := [(0, 0), (4, 0)],
        locations := [{ country_code := "RU", city := "Moscow" },
                      { country_code := "NO", city := "Oslo" }],
        countries := [("RU", "Russia")] } : ServiceState)).locations.length =
      (({ coordinates := [(0, 0), (4, 0)],
          locations := [{ country_code := "RU", city := "Moscow" },
                        { country_code := "NO", city := "Oslo" }],
          countries := [("RU", "Russia")] } : ServiceState)).coordinates.length ∧
    (({ coordinates := [(0, 0), (4, 0)],
        locations := [{ country_code := "RU", city := "Moscow" },
                      { country_code := "NO", city := "Oslo" }],
        countries := [("RU", "Russia")] } : ServiceState)).coordinates ≠ [] ∧
    ∃ rs, (search { coordinates := [(0, 0), (4, 0)],
                    locations := [{ country_code := "RU", city := "Moscow" },
                                  { country_code := "NO", city := "Oslo" }],
                    countries := [("RU", "Russia")] }
            [["3", "0"], ["0", "1"]]).result = .ok rs ∧
      rs.length = ([["3", "0"], ["0", "1"]] : List (List String)).length ∧
      ∀ (i : Nat) (p : ℚ × ℚ), ([(3, 0), (0, 1)] : List (ℚ × ℚ))[i]? = some p →
        ∃ (j : Nat) (cj : ℚ × ℚ) (rec : LocRecord) (r : QueryResult),
          (([(0, 0), (4, 0)]) : List (ℚ × ℚ))[j]? = some cj ∧
          ([{ country_code := "RU", city := "Moscow" },
            { country_code := "NO", city := "Oslo" }] : List LocRecord)[j]? = some rec ∧
          rs[i]? = some r ∧
          r.city = rec.city ∧ r.country_code = rec.country_code ∧
          ∀ (k : Nat) (ck : ℚ × ℚ), (([(0, 0), (4, 0)]) : List (ℚ × ℚ))[k]? = some ck →
            sqDist cj p ≤ sqDist ck p := by
  refine ⟨?_, by decide, rfl, List.cons_ne_nil _ _, ?_⟩
  · simp +decide [parsePoints, parsePoint, parseDecimal, splitFrac,
      parseDigits, parseDigitsAux]
  · exact search_nearest_per_input _ _ _
      (by simp +decide [parsePoints, parsePoint, parseDecimal, splitFrac,
        parseDigits, parseDigitsAux])
      (by decide) rfl (List.cons_ne_nil _ _)

/-- C6: searching with an empty coordinate batch returns the empty result
list without error, leaves the state unchanged and logs nothing. -/
theorem search_empty (st : ServiceState) :
    (search st []).result = .ok [] ∧ (search st []).state = st ∧
      (search st []).log = [] :=
  ⟨rfl, rfl, rfl⟩

/-- C8: when the batched coordinate conversion fails (non-numeric component
or malformed arity), the error is logged and re-raised to the caller, and
the shared state is unchanged by the failed call. -/
theorem query_input_error (st : ServiceState) (coords : List (List String))
    (h : parsePoints coords = none) :
    (query st coords).result = .error "ValueError" ∧
    (query st coords).state = st ∧
    (query st coords).log = ["Unable to parse coordinates"] := by
  simp [query, h]

/-- Witness for C8 at a non-numeric concrete coordinate. -/
theorem query_input_error_witness :
    parsePoints [["x", "1"]] = none ∧
    (query { coordinates := [], locations := [], countries := [] }
        [["x", "1"]]).result = .error "ValueError" ∧
    (query { coordinates := [], locations := [], countries := [] }
        [["x", "1"]]).state =
      { coordinates := [], locations := [], countries := [] } :=
  ⟨by decide,
   (query_input_error _ _ (by decide)).1,
   (query_input_error _ _ (by decide)).2.1⟩

/-- The success path of `query`, as an explicit equation. -/
theorem query_eq_of_parse (st : ServiceState) (coords : List (List String))
    (pts : List (ℚ × ℚ)) (hp : parsePoints coords = some pts) :
    query st coords =
      { result := .ok ((pts.map (nearestIdx st.coordinates)).map (fun i =>
          toResult (((applyHits st.countries st.locations
            (pts.map (nearestIdx st.coordinates)))[i]?).getD
              { country_code := "", city := "" }))),
        state := { st with locations := (applyHits st.countries st.locations
          (pts.map (nearestIdx st.coordinates))) },
        log := [] } := by
  unfold query
  rw [hp]

/-- The defining equation of the module-level `get`, avoiding the
name clash with the state monad's `get` in rewriting. -/
theorem get_eq (st : ServiceState) (c : List String) :
    get st c =
      match (query st [c]).result with
      | .ok (r :: _) => (.ok r, (query st [c]).state)
      | .ok [] => (.error "IndexError", (query st [c]).state)
      | .error e => (.error e, (query st [c]).state) :=
  rfl

/-- C9: `get(c)` delegates to `query([c])[0]`: it leaves the state exactly
as `search([c])` does, propagates the same error, and on success returns
precisely the single result of `search([c])`. -/
theorem get_matches_search_head (st : ServiceState) (c : List String) :
    (get st c).2 = (search st [c]).state ∧
    (∀ e, (search st [c]).result = .error e → (get st c).1 = .error e) ∧
    (∀ rs, (search st [c]).result = .ok rs →
      ∃ r, rs = [r] ∧ (get st c).1 = .ok r) := by
  have hs : search st [c] = query st [c] := rfl
  rcases hp : parsePoints [c] with _ | pts
  · have hqe : query st [c] =
        { result := .error "ValueError", state := st,
          log := ["Unable to parse coordinates"] } := by
      unfold query
      rw [hp]
    refine ⟨?_, ?_, ?_⟩
    · rw [get_eq, hs, hqe]
    · intro e he
      rw [hs, hqe] at he
      simp only [Except.error.injEq] at he
      rw [get_eq, hqe, ← he]

    · intro rs hrs
      rw [hs, hqe] at hrs
      exact absurd hrs (by simp)
  · obtain ⟨q, _hq, rfl⟩ := parsePoints_singleton c pts hp
    have hqe := query_eq_of_parse st [c] [q] hp
    refine ⟨?_, ?_, ?_⟩
    · rw [get_eq, hs, hqe]
      rfl
    · intro e he
      rw [hs, hqe] at he
      exact absurd he (by simp)
    · intro rs hrs
      rw [hs, hqe] at hrs
      simp only [Except.ok.injEq] at hrs
      refine ⟨_, hrs.symm, ?_⟩
      rw [get_eq, hqe]
      rfl

/-- Witness for C9 at a concrete coordinate and service state. -/
theorem get_matches_search_head_witness :
    ∃ rs, (search { coordinates := [(0, 0)],
                    locations := [{ country_code := "RU", city := "Moscow" }],
                    countries := [("RU", "Russia")] } [["0", "0"]]).result = .ok rs ∧
      ∃ r, rs = [r] ∧
        (get { coordinates := [(0, 0)],
               locations := [{ country_code := "RU", city := "Moscow" }],
               countries := [("RU", "Russia")] } ["0", "0"]).1 = .ok r := by
  have hp : parsePoints [["0", "0"]] = some [(0, 0)] := by
    simp +decide [parsePoints, parsePoint, parseDecimal, splitFrac,
      parseDigits, parseDigitsAux]
  have hres : (search { coordinates := [(0, 0)],
                        locations := [{ country_code := "RU", city := "Moscow" }],
                        countries := [("RU", "Russia")] } [["0", "0"]]).result =
      .ok [{ city := "Moscow", country_code := "RU", country := "Russia" }] := by
    norm_num [search, query, hp, nearestIdx, applyHits, hitStep, setCountry,
      dictGet, List.argmin, List.enum, List.enumFrom, List.argAux, toResult]
  exact ⟨_, hres, (get_matches_search_head _ ["0", "0"]).2.2 _ hres⟩

/-- C10: every returned result's `country` is the catalog lookup of its
`country_code` with default `""`; in particular a code absent from the
catalog yields the empty string, and the query still succeeds. -/
theorem result_country_resolved (st : ServiceState)
    (coords : List (List String)) (pts : List (ℚ × ℚ))
    (hp : parsePoints coords = some pts)
    (hlen : st.locations.length = st.coordinates.length)
    (hc : st.coordinates ≠ []) :
    ∃ rs, (query st coords).result = .ok rs ∧
      ∀ r ∈ rs,
        r.country = dictGet st.countries r.country_code "" ∧
        ((∀ p ∈ st.countries, p.1 ≠ r.country_code) → r.country = "") := by
  rw [query_eq_of_parse st coords pts hp]
  refine ⟨_, rfl, ?_⟩
  intro r hr
  obtain ⟨j, hjmem, hrj⟩ := List.mem_map.1 hr
  obtain ⟨p, _hpmem, hje⟩ := List.mem_map.1 hjmem
  obtain ⟨cj, hcj, _⟩ := nearestIdx_spec st.coordinates p hc
  have hjlt : j < st.coordinates.length := by
    rw [← hje]; exact (List.getElem?_eq_some_iff.1 hcj).1
  have hjl : j < st.locations.length := by rw [hlen]; exact hjlt
  have hrec : st.locations[j]? = some (st.locations.get ⟨j, hjl⟩) :=
    List.getElem?_eq_getElem hjl
  have hmut : (applyHits st.countries st.locations
      (pts.map (nearestIdx st.coordinates)))[j]? =
      some (setCountry st.countries (st.locations.get ⟨j, hjl⟩)) := by
    rw [applyHits_getElem_mem st.countries st.locations _ _ hjmem, hrec]
    rfl
  have hre : r = toResult (setCountry st.countries (st.locations.get ⟨j, hjl⟩)) := by
    rw [← hrj, hmut]
    rfl
  have hcountry : r.country =
      dictGet st.countries (st.locations.get ⟨j, hjl⟩).country_code "" := by
    rw [hre]; rfl
  have hcode : r.country_code = (st.locations.get ⟨j, hjl⟩).country_code := by
    rw [hre]; rfl
  refine ⟨by rw [hcountry, hcode], ?_⟩
  intro habsent
  rw [hcountry]
  exact dictGet_not_mem st.countries _ ""
    (fun p hpm => hcode ▸ habsent p hpm)

/-- Witness for C10: a matched record whose code is absent from the catalog
resolves to the empty string; a present code resolves to its name. -/
theorem result_country_resolved_witness :
    ∃ rs, (query { coordinates := [(0, 0), (4, 0)],
                   locations := [{ country_code := "RU", city := "Moscow" },
                                 { country_code := "NO", city := "Oslo" }],
                   countries := [("RU", "Russia")] }
            [["0", "0"], ["4", "0"]]).result = .ok rs ∧
      ∀ r ∈ rs,
        r.country = dictGet [("RU", "Russia")] r.country_code "" ∧
        ((∀ p ∈ [("RU", "Russia")], p.1 ≠ r.country_code) → r.country = "") :=
  result_country_resolved _ _ [(0, 0), (4, 0)]
    (by simp +decide [parsePoints, parsePoint, parseDecimal, splitFrac,
      parseDigits, parseDigitsAux])
    rfl (List.cons_ne_nil _ _)

/-! ## Claim C5: state after queries -/

/-- The state right after construction is trivially preserved. -/
theorem preservedFrom_refl (st : ServiceState) : preservedFrom st st :=
  ⟨rfl, rfl, rfl, fun _ => Or.inl rfl⟩

/-- One `query` call keeps coordinates, catalog and record count, and
changes a record at most by setting its country key from the catalog. -/
theorem preservedFrom_query (st0 s : ServiceState) (q : List (List String))
    (h : preservedFrom st0 s) : preservedFrom st0 (query s q).state := by
  obtain ⟨hco, hct, hlen, hpt⟩ := h
  rcases hpq : parsePoints q with _ | pts
  · have hst : (query s q).state = s := by
      unfold query
      rw [hpq]
    rw [hst]
    exact ⟨hco, hct, hlen, hpt⟩
  · rw [query_eq_of_parse s q pts hpq]
    refine ⟨hco, hct, ?_, ?_⟩
    · calc (applyHits s.countries s.locations
            (pts.map (nearestIdx s.coordinates))).length
          = s.locations.length := applyHits_length _ _ _
        _ = st0.locations.length := hlen
    · intro i
      have hred : ({ s with locations := (applyHits s.countries s.locations
          (pts.map (nearestIdx s.coordinates))) } : ServiceState).locations =
          applyHits s.countries s.locations
            (pts.map (nearestIdx s.coordinates)) := rfl
      rw [hred]
      rcases applyHits_getElem s.countries s.locations
          (pts.map (nearestIdx s.coordinates)) i with h1 | h1
      · rcases hpt i with h2 | h2
        · exact Or.inl (by rw [h1, h2])
        · exact Or.inr (by rw [h1, h2])
      · rcases hpt i with h2 | h2
        · exact Or.inr (by rw [h1, h2, hct])
        · exact Or.inr (by rw [h1, h2, hct, map_setCountry_idem])

/-- Preservation extends over any sequence of query calls. -/
theorem preservedFrom_runQueries (st0 s : ServiceState)
    (qs : List (List (List String))) (h : preservedFrom st0 s) :
    preservedFrom st0 (runQueries s qs) := by
  induction qs generalizing s with
  | nil => exact h
  | cons q rest ih => exact ih (query s q).state (preservedFrom_query st0 s q h)

/-- C5 counterexample: a single successful query already mutates the shared
state — the matched stored record dict gains a `'country'` key — so the
state after a query sequence is not equal to the state right after
construction. -/
theorem query_mutates_shared_state :
    runQueries { coordinates := [(0, 0)],
                 locations := [{ country_code := "RU", city := "Moscow" }],
                 countries := [("RU", "Russia")] } [[["0", "0"]]] ≠
      { coordinates := [(0, 0)],
        locations := [{ country_code := "RU", city := "Moscow" }],
        countries := [("RU", "Russia")] } := by
  have hp : parsePoints [["0", "0"]] = some [(0, 0)] := by
    simp +decide [parsePoints, parsePoint, parseDecimal, splitFrac,
      parseDigits, parseDigitsAux]
  have hloc : (runQueries { coordinates := [(0, 0)],
                            locations := [{ country_code := "RU", city := "Moscow" }],
                            countries := [("RU", "Russia")] } [[["0", "0"]]]).locations =
      [{ country_code := "RU", city := "Moscow", country := some "Russia" }] := by
    norm_num [runQueries, query, hp, nearestIdx, applyHits, hitStep, setCountry,
      dictGet, List.argmin, List.enum, List.enumFrom, List.argAux]
  intro h
  rw [h] at hloc
  simp at hloc

/-- C5 (amended): after construction, query operations never change the
coordinate set, the country catalog, the number of stored records, or any
record's `country_code` and `city`; the only mutation a query performs is
setting a matched record's `'country'` key to its catalog resolution
(idempotently), and `search`/`get` share exactly `query`'s state effect. -/
theorem queries_mutate_only_country (st : ServiceState)
    (qs : List (List (List String))) :
    preservedFrom st (runQueries st qs) ∧
    (∀ coords, (search st coords).state = (query st coords).state) ∧
    (∀ c, (get st c).2 = (query st [c]).state) := by
  refine ⟨preservedFrom_runQueries st st qs (preservedFrom_refl st),
    fun _ => rfl, fun c => ?_⟩
  rw [get_eq]
  rcases hqr : (query st [c]).result with e | rs
  · rfl
  · rcases rs with _ | ⟨r, rest⟩ <;> rfl
